import Mathlib

/-!
# Verification of the sampling core of the classification service backend

Shallow embedding of `classification_service/sampling_utils.py`,
`classification_service/sampling.py` and `classification_service/tasks.py`.

Modelling conventions:
* Python floats are modelled by `ℚ` (exact arithmetic); `datetime` /
  `timedelta` values are modelled by `ℤ` counts of microseconds, which is
  Python's exact internal representation.
* Python `round` is round-half-to-even (`pythonRound` below), and
  `timedelta // int` division uses CPython's `_divide_and_round`
  (round-half-to-even on microseconds), both modelled exactly.
* Shapely geometries are modelled on the fragment reachable in the claims:
  axis-aligned rectangles (`GeoShape.box`, closed point sets) and the empty
  geometry.  A degenerate (zero-width or zero-height) intersection is
  identified with the empty geometry.
* The ambient random source is modelled as an explicit stream of candidate
  values consumed one per attempt; theorems quantify over all streams.
* Exceptions are modelled with `Except`: `ValueError msg` becomes
  `Except.error msg` (or the `PyErr` type where `ZeroDivisionError` must be
  distinguished).
-/

namespace ClassificationService

/-- Python's built-in `round` on exact values: round half to even.
For a non-half fractional part this agrees with rounding to nearest
(`round` of Mathlib); at an exact half it picks the even neighbour. -/
def pythonRound (q : ℚ) : ℤ :=
  if q - ⌊q⌋ = 1/2 then (if Even ⌊q⌋ then ⌊q⌋ else ⌊q⌋ + 1) else round q

instance {ε α : Type} [DecidableEq ε] [DecidableEq α] : DecidableEq (Except ε α) := fun x y =>
  match x, y with
  | .ok a, .ok b =>
      if h : a = b then .isTrue (by rw [h]) else .isFalse (fun hc => h (Except.ok.inj hc))
  | .error a, .error b =>
      if h : a = b then .isTrue (by rw [h]) else .isFalse (fun hc => h (Except.error.inj hc))
  | .ok _, .error _ => .isFalse (fun hc => Except.noConfusion hc)
  | .error _, .ok _ => .isFalse (fun hc => Except.noConfusion hc)

/-- Geometry fragment: the empty geometry or a closed axis-aligned box
`[x0, x1] × [y0, y1]`.  All geometries appearing in the verified claims stay
inside this fragment. -/
inductive GeoShape where
  | empty : GeoShape
  | box (x0 y0 x1 y1 : ℚ) : GeoShape
deriving DecidableEq

/-- Shapely truthiness (`if not geo_shape`): only the empty geometry is falsy. -/
def GeoShape.isEmpty : GeoShape → Bool
  | .empty => true
  | .box _ _ _ _ => false

/-- `shapely.affinity.translate` on the fragment. -/
def GeoShape.translate : GeoShape → ℚ → ℚ → GeoShape
  | .empty, _, _ => .empty
  | .box x0 y0 x1 y1, dx, dy => .box (x0 + dx) (y0 + dy) (x1 + dx) (y1 + dy)

/-- `shapely` intersection on the fragment.  An intersection of boxes that is
degenerate (a segment, a point, or empty) is identified with the empty
geometry: no positive-area sampling is possible inside it. -/
def GeoShape.inter : GeoShape → GeoShape → GeoShape
  | .box a b c d, .box a2 b2 c2 d2 =>
      if max a a2 < min c c2 ∧ max b b2 < min d d2 then
        .box (max a a2) (max b b2) (min c c2) (min d d2)
      else .empty
  | _, _ => .empty

/-- `convex_hull` on the fragment: a box is convex, and the hull of the empty
geometry is empty. -/
def GeoShape.convex_hull : GeoShape → GeoShape
  | .empty => .empty
  | .box a b c d => .box a b c d

/-- Set difference on the fragment.  It is exact whenever the subtrahend is
empty or contains the minuend (the only cases this development reaches: in
`minkowski_difference` the subtrahend is either the shape itself or empty);
a partially overlapping subtrahend would leave the fragment. -/
def GeoShape.difference : GeoShape → GeoShape → GeoShape
  | .empty, _ => .empty
  | .box a b c d, .empty => .box a b c d
  | .box a b c d, .box a2 b2 c2 d2 =>
      if a2 ≤ a ∧ b2 ≤ b ∧ c ≤ c2 ∧ d ≤ d2 then .empty else .box a b c d

/-- `geo_shape.intersects(point)` for a point: closed containment. -/
def GeoShape.intersectsPt : GeoShape → ℚ × ℚ → Bool
  | .empty, _ => false
  | .box a b c d, p => decide (a ≤ p.1 ∧ p.1 ≤ c ∧ b ≤ p.2 ∧ p.2 ≤ d)

/-- `minkowski_sum` of `sampling_utils.py` on the fragment.  The source
triangulates the shape and unions the convex Minkowski sums of the triangles
with the rectangle spanned by the offsets `(0,0), (w0,0), (0,-w1), (w0,-w1)`;
for a box that union is exactly the dilated box written here, and for the
empty geometry the source returns it unchanged before triangulating. -/
def minkowski_sum (geo_shape : GeoShape) (window_shape : ℚ × ℚ) : GeoShape :=
  match geo_shape with
  | .empty => .empty
  | .box a b c d =>
      .box (a + min window_shape.1 0) (b + min (-window_shape.2) 0)
           (c + max window_shape.1 0) (d + max (-window_shape.2) 0)

/-- `convex_minkowski_difference` of `sampling_utils.py`: intersect the shape
with its translates by `(-w0, 0)`, `(0, w1)` and `(-w0, w1)`. -/
def convex_minkowski_difference (geo_shape : GeoShape) (window_shape : ℚ × ℚ) : GeoShape :=
  let translated_shapes := [geo_shape.translate (-window_shape.1) 0,
                            geo_shape.translate 0 window_shape.2,
                            geo_shape.translate (-window_shape.1) window_shape.2]
  translated_shapes.foldl GeoShape.inter geo_shape

/-- `minkowski_difference` of `sampling_utils.py`. -/
def minkowski_difference (geo_shape : GeoShape) (window_shape : ℚ × ℚ) : GeoShape :=
  if geo_shape.isEmpty then geo_shape
  else
    let area_hull := geo_shape.convex_hull
    let area_diff := area_hull.difference geo_shape
    (convex_minkowski_difference area_hull window_shape).difference
      (minkowski_sum area_diff (-window_shape.1, -window_shape.2))

/-- The bounded-retry loop shared by `random_sample_point` (10 tries) and
`SentinelHubSampling.__next__` (16 tries): run the per-attempt outcome on
successive random draws, return the first success, and fail with the given
message when the attempt budget is exhausted.  The second component counts
the attempts actually made. -/
def attemptLoop {α : Type} (failMsg : String) (outcome : ℕ → Except String α) :
    ℕ → ℕ → Except String α × ℕ
  | 0, used => (Except.error failMsg, used)
  | tries + 1, used =>
      match outcome used with
      | Except.ok a => (Except.ok a, used + 1)
      | Except.error _ => attemptLoop failMsg outcome tries (used + 1)

/-- The candidate point produced on attempt `i`:
`PointSampler.random_point_triangle(triangles[...], use_int_coords)` of
`eolearn` (external library).  Modelled from the spec: the raw uniformly
drawn point is taken from the candidate stream, and with `use_int_coords`
its coordinates are rounded to the integer grid. -/
def samplePointCandidate (cands : ℕ → ℚ × ℚ) (use_int_coords : Bool) (i : ℕ) : ℚ × ℚ :=
  let p := cands i
  if use_int_coords then ((pythonRound p.1 : ℚ), (pythonRound p.2 : ℚ)) else p

/-- The failure message of `random_sample_point`. -/
def samplingFailMsg (use_int_coords : Bool) : String :=
  "Failed to sample the area" ++
    (if use_int_coords then " with a window that has integer coordinates" else "")

/-- `random_sample_point` of `sampling_utils.py`: up to 10 attempts, each
drawing a candidate point and re-checking `geo_shape.intersects(point)`;
the triangle selection feeding the candidate stream is modelled by the
stream itself (the binary search it uses is verified separately).  Returns
the result together with the number of attempts made. -/
def random_sample_point (geo_shape : GeoShape) (cands : ℕ → ℚ × ℚ)
    (use_int_coords : Bool) : Except String (ℚ × ℚ) × ℕ :=
  attemptLoop (samplingFailMsg use_int_coords)
    (fun i =>
      let p := samplePointCandidate cands use_int_coords i
      if geo_shape.intersectsPt p then Except.ok p else Except.error "point outside shape")
    10 0

/-- `random_sample` of `sampling_utils.py`: erode the shape by the window,
fail if the erosion is empty, draw the anchor point with
`use_int_coords=True`, and return the polygon with corners
`(x, y), (x+w0, y), (x+w0, y-w1), (x, y-w1)` (the anchor is the window's
upper-left corner). -/
def random_sample (geo_shape : GeoShape) (window_shape : ℚ × ℚ)
    (cands : ℕ → ℚ × ℚ) : Except String (List (ℚ × ℚ)) :=
  let subgeo_shape := minkowski_difference geo_shape window_shape
  if subgeo_shape.isEmpty then
    Except.error "You cannot sample the area with so large window size"
  else
    match (random_sample_point subgeo_shape cands true).1 with
    | Except.error e => Except.error e
    | Except.ok (x, y) =>
        Except.ok [(x, y), (x + window_shape.1, y),
                   (x + window_shape.1, y - window_shape.2), (x, y - window_shape.2)]

/-- `ShIndexSampling.get_random_tile` of `sampling.py` for an archive of a
single tile: the uniform draw `random.randint(1, 1)` always selects that
tile, whose metadata is summarised by its `coverArea`; the tile is accepted
only if `coverArea / 12055600804.0 ≥ 0.1` and the Bernoulli draw `bern`
(a `random.random()` value) is at most that fraction. -/
def get_random_tile (coverArea : ℚ) (bern : ℚ) : Except String ℚ :=
  let cover_percentage := coverArea / 12055600804
  if 1/10 ≤ cover_percentage ∧ bern ≤ cover_percentage then Except.ok cover_percentage
  else Except.error "Could not get a random tile with enough coverage from the archive"

/-- `SentinelHubSampling.__next__` of `sampling.py`: 16 bounded attempts of
the per-attempt outcome (tile draw followed by geometry/bbox sampling and
task construction, any step of which may raise `ValueError`), then
`ValueError('Failed to sample a new task')`.  Returns the result together
with the number of attempts made. -/
def SentinelHubSampling_next {α : Type} (outcome : ℕ → Except String α) :
    Except String α × ℕ :=
  attemptLoop "Failed to sample a new task" outcome 16 0

/-- `_binary_search` of `sampling_utils.py`, inner while-loop; the loop
variable `pivot = (left + right) // 2` is inlined.  List access
`increasing_list[pivot + 1]` is modelled with `List.getD` (all accesses are
in bounds under the hypotheses of the specification theorem). -/
def _binary_search_loop (increasing_list : List ℚ) (value : ℚ) (left right : ℕ) : ℕ :=
  if h : left < right then
    if increasing_list.getD ((left + right) / 2 + 1) 0 ≥ value then
      _binary_search_loop increasing_list value left ((left + right) / 2)
    else
      _binary_search_loop increasing_list value ((left + right) / 2 + 1) right
  else left
termination_by right - left
decreasing_by
  · simp_wf
    omega
  · simp_wf
    omega

/-- `_binary_search` of `sampling_utils.py`.  (For lists shorter than 2 the
Python initial `right` is negative and the loop body never runs, returning
0, exactly as the truncated natural subtraction does here.) -/
def _binary_search (increasing_list : List ℚ) (value : ℚ) : ℕ :=
  _binary_search_loop increasing_list value 0 (increasing_list.length - 2)

/-- A geo-referenced raster: pixel grid dimensions plus the pixel contents.
Row index 0 is the top row (maximum-y edge of the geo bbox). -/
structure PyImage where
  height : ℤ
  width : ℤ
  pix : ℤ → ℤ → ℤ

/-- CRS tags mirroring the `sentinelhub.CRS` enum members reachable here:
WGS84 (EPSG 4326), web mercator (3857), and the UTM zones (326xx / 327xx).
The enum canonicalises codes, so 4326 and the WGS84 member are one value. -/
inductive CRS where
  | wgs84 : CRS
  | pop_web : CRS
  | utm (north : Bool) (zone : ℕ) : CRS
deriving DecidableEq

/-- `int(crs.value)`: the EPSG code of a CRS. -/
def CRS.value : CRS → ℕ
  | .wgs84 => 4326
  | .pop_web => 3857
  | .utm north zone => (if north then 32600 else 32700) + zone

/-- `sentinelhub.BBox`: four ordered coordinates plus a CRS.  In WGS84 the
x axis is longitude and the y axis is latitude. -/
structure BBox where
  min_x : ℚ
  min_y : ℚ
  max_x : ℚ
  max_y : ℚ
  crs : CRS
deriving DecidableEq

/-- `list(bbox)`: the four coordinates in (min-x, min-y, max-x, max-y) order. -/
def BBox.coords (b : BBox) : List ℚ :=
  [b.min_x, b.min_y, b.max_x, b.max_y]

/-- `get_resolution` of `sampling_utils.py`: per-axis units per pixel. -/
def get_resolution (image : PyImage) (b : BBox) : ℚ × ℚ :=
  ((b.max_x - b.min_x) / (image.width : ℚ), (b.max_y - b.min_y) / (image.height : ℚ))

/-- Normalisation of one bound of a Python slice `[a:b]` (step 1) against a
sequence of length `len`: negative indices count from the end, and both
bounds are clamped into `[0, len]`. -/
def sliceNorm (len a : ℤ) : ℤ :=
  if a < 0 then max (len + a) 0 else min a len

/-- `image[r0:r1, c0:c1, ...]`: crop with Python slice semantics. -/
def pySlice2d (image : PyImage) (r0 r1 c0 c1 : ℤ) : PyImage :=
  let rs := sliceNorm image.height r0
  let re := sliceNorm image.height r1
  let cs := sliceNorm image.width c0
  let ce := sliceNorm image.width c1
  { height := max (re - rs) 0
    width := max (ce - cs) 0
    pix := fun i j => image.pix (rs + i) (cs + j) }

/-- A pixel window `[x0, y0, x1, y1]` (the `window_coords` list). -/
structure Window where
  x0 : ℤ
  y0 : ℤ
  x1 : ℤ
  y1 : ℤ
deriving DecidableEq

/-- `sample_image_with_window` of `sampling_utils.py`: crop
`image[height - y1 : height - y0, x0 : x1]` and recompute the geo bbox of
the crop from the per-axis resolution. -/
def sample_image_with_window (image : PyImage) (bbox : BBox) (w : Window) :
    PyImage × BBox :=
  let r := get_resolution image bbox
  (pySlice2d image (image.height - w.y1) (image.height - w.y0) w.x0 w.x1,
   { min_x := bbox.min_x + r.1 * w.x0
     min_y := bbox.min_y + r.2 * w.y0
     max_x := bbox.min_x + r.1 * w.x1
     max_y := bbox.min_y + r.2 * w.y1
     crs := bbox.crs })

/-- `sample_image_with_bbox` of `sampling_utils.py`: convert the target geo
coordinates `(rc0, rc1, rc2, rc3)` into pixel space, apply the pixel buffer
outward, clamp to the raster bounds, and delegate to
`sample_image_with_window`. -/
def sample_image_with_bbox (image : PyImage) (bbox : BBox)
    (rc0 rc1 rc2 rc3 : ℚ) (buffer : ℤ) : PyImage × BBox :=
  let r := get_resolution image bbox
  sample_image_with_window image bbox
    { x0 := max (pythonRound ((rc0 - bbox.min_x) / r.1 - (buffer : ℚ))) 0
      y0 := max (pythonRound ((rc1 - bbox.min_y) / r.2 - (buffer : ℚ))) 0
      x1 := min (pythonRound ((rc2 - bbox.min_x) / r.1 + (buffer : ℚ))) image.width
      y1 := min (pythonRound ((rc3 - bbox.min_y) / r.2 + (buffer : ℚ))) image.height }

/-- `GeopediaLayerSampling.__next__` cursor update of `sampling.py`:
`self.index += 1; if self.index >= len(self.item_list): self.index = 0`. -/
def GeopediaLayerSampling_next_index (len idx : ℕ) : ℕ :=
  if len ≤ idx + 1 then 0 else idx + 1

/-- The cursor value after `k` calls to `GeopediaLayerSampling.__next__`,
starting from the initial `self.index = 0`; the feature consumed on call `k`
is `item_list[GeopediaLayerSampling_index_after len k]`. -/
def GeopediaLayerSampling_index_after (len : ℕ) : ℕ → ℕ
  | 0 => 0
  | k + 1 => GeopediaLayerSampling_next_index len (GeopediaLayerSampling_index_after len k)

/-- `Task` of `tasks.py` (the fields the serialisation claim touches; the
data payload and vector overlays pass through serialisation unchanged). -/
structure Task where
  task_id : String
  bbox : BBox
  acq_time : ℤ
  window_width : ℕ
  window_height : ℕ

/-- The serialised payload produced by `Task.get_app_json` (the fields set
before `TaskSchema(strict=True).dump`, which validates and serialises them
without reordering the `bbox` list of floats). -/
structure AppJson where
  id : String
  bbox : List ℚ
  crs : ℕ
  window_width : ℕ
  window_height : ℕ

/-- `Task.get_app_json` of `tasks.py`: the bbox list is axis-swapped exactly
when the CRS is the WGS84 member. -/
def Task.get_app_json (t : Task) : AppJson :=
  let bbox_coords := t.bbox.coords
  { id := t.task_id
    bbox := if t.bbox.crs = CRS.wgs84 then
        [bbox_coords.getD 1 0, bbox_coords.getD 0 0,
         bbox_coords.getD 3 0, bbox_coords.getD 2 0]
      else bbox_coords
    crs := t.bbox.crs.value
    window_width := t.window_width
    window_height := t.window_height }

/-- Python exceptions distinguished by the time-split claims. -/
inductive PyErr where
  | valueError (msg : String) : PyErr
  | zeroDivisionError : PyErr
deriving DecidableEq

/-- CPython's `_divide_and_round(a, b)` (used by `timedelta // int` and
`timedelta / int`): floor-divmod, then round half to even.  Python's
`divmod` is floor-based, hence `Int.fdiv` / `Int.fmod`; `q % 2` with the
positive modulus 2 agrees with `Int.emod`. -/
def _divide_and_round (a b : ℤ) : ℤ :=
  let q := Int.fdiv a b
  let r := 2 * Int.fmod a b
  let greater_than_half := if 0 < b then b < r else r < b
  if greater_than_half ∨ (r = b ∧ q % 2 = 1) then q + 1 else q

/-- Four weeks in microseconds: `datetime.timedelta(weeks=4)`, the default
`resolution` of `_time_split`. -/
def FOUR_WEEKS : ℤ := 2419200000000

/-- The chunk count `n_t = math.ceil(delta_t / resolution)` of
`_time_split`.  The float quotient of the two microsecond counts is
correctly rounded, so it agrees with the exact rational ceiling used here
for all magnitudes below 2^53 microseconds (about 285 years). -/
def n_chunks (t0 t1 resolution : ℤ) : ℤ :=
  ⌈((t1 - t0 : ℤ) : ℚ) / (resolution : ℚ)⌉

/-- The chunk duration `delta_t = delta_t / n_t` of `_time_split`:
`timedelta / int` division, i.e. `_divide_and_round` on microseconds. -/
def chunk_length (t0 t1 resolution : ℤ) : ℤ :=
  _divide_and_round (t1 - t0) (n_chunks t0 t1 resolution)

/-- `ShOgcSampling._time_split` of `sampling.py` on a two-element
`[t0, t1]` interval (the only shape the service constructs; the
`len(time_interval) > 2` guard is vacuous for it).  Times are microsecond
counts.  The `timedelta / int` division `delta_t / n_t` raises
`ZeroDivisionError` when `n_t = 0`, before the chunk list is built. -/
def _time_split (t0 t1 : ℤ) (resolution : ℤ) : Except PyErr (List (ℤ × ℤ)) :=
  if n_chunks t0 t1 resolution = 0 then Except.error PyErr.zeroDivisionError
  else
    Except.ok ((List.range (n_chunks t0 t1 resolution).toNat).map
      (fun i : ℕ => (t0 + (i : ℤ) * chunk_length t0 t1 resolution,
                     t0 + ((i : ℤ) + 1) * chunk_length t0 t1 resolution)))

/-- `ShOgcSampling.__init__` of `sampling.py`, restricted to the state the
time-interval claims touch: it computes
`self.time_interval_list = self._time_split(self.time_interval)` with the
4-week default resolution before anything else can fail, so any error it
raises propagates out of the constructor. -/
def ShOgcSampling_init (t0 t1 : ℤ) : Except PyErr (List (ℤ × ℤ)) :=
  _time_split t0 t1 FOUR_WEEKS

/-! ## General lemmas -/

theorem pythonRound_intCast (n : ℤ) : pythonRound (n : ℚ) = n := by
  unfold pythonRound
  rw [Int.floor_intCast]
  norm_num

theorem attemptLoop_all_fail {α : Type} (msg : String) (outcome : ℕ → Except String α) :
    ∀ (tries used : ℕ),
      (∀ i, i < tries → ∀ a, outcome (used + i) ≠ Except.ok a) →
      attemptLoop msg outcome tries used = (Except.error msg, used + tries) := by
  intro tries
  induction tries with
  | zero => intro used _; simp [attemptLoop]
  | succ k ih =>
      intro used h
      rw [attemptLoop]
      cases hout : outcome used with
      | ok a => exact absurd hout (by simpa using h 0 (by omega) a)
      | error e =>
          rw [ih (used + 1) (fun i hi a => by
            have := h (i + 1) (by omega) a
            simpa [Nat.add_assoc, Nat.add_comm 1 i] using this)]
          simp only [Prod.mk.injEq, true_and]
          omega

theorem attemptLoop_first_ok {α : Type} (msg : String) (outcome : ℕ → Except String α)
    (a : α) :
    ∀ (j tries used : ℕ), j < tries → outcome (used + j) = Except.ok a →
      (∀ i, i < j → ∀ b, outcome (used + i) ≠ Except.ok b) →
      attemptLoop msg outcome tries used = (Except.ok a, used + j + 1) := by
  intro j
  induction j with
  | zero =>
      intro tries used htr hok _
      obtain ⟨k, rfl⟩ : ∃ k, tries = k + 1 := ⟨tries - 1, by omega⟩
      rw [attemptLoop]
      simp only [Nat.add_zero] at hok
      rw [hok]
  | succ m ih =>
      intro tries used htr hok hfail
      obtain ⟨k, rfl⟩ : ∃ k, tries = k + 1 := ⟨tries - 1, by omega⟩
      rw [attemptLoop]
      cases hout : outcome used with
      | ok b => exact absurd hout (by simpa using hfail 0 (by omega) b)
      | error e =>
          rw [ih k (used + 1) (by omega)
            (by rw [show used + 1 + m = used + (m + 1) by omega]; exact hok)
            (fun i hi b => by
              have := hfail (i + 1) (by omega) b
              simpa [Nat.add_assoc, Nat.add_comm 1 i] using this)]
          simp only [Prod.mk.injEq, true_and]
          omega

theorem attemptLoop_attempts_le {α : Type} (msg : String) (outcome : ℕ → Except String α) :
    ∀ (tries used : ℕ), (attemptLoop msg outcome tries used).2 ≤ used + tries := by
  intro tries
  induction tries with
  | zero => intro used; simp [attemptLoop]
  | succ k ih =>
      intro used
      rw [attemptLoop]
      cases outcome used with
      | ok a => simp
      | error e => exact le_trans (ih (used + 1)) (by omega)

theorem attemptLoop_fst_ok {α : Type} (msg : String) (outcome : ℕ → Except String α)
    (a : α) :
    ∀ (tries used : ℕ), (attemptLoop msg outcome tries used).1 = Except.ok a →
      ∃ i, outcome i = Except.ok a := by
  intro tries
  induction tries with
  | zero => intro used h; simp [attemptLoop] at h
  | succ k ih =>
      intro used h
      rw [attemptLoop] at h
      cases hout : outcome used with
      | ok b =>
          rw [hout] at h
          simp only at h
          exact ⟨used, by rw [hout, h]⟩
      | error e =>
          rw [hout] at h
          exact ih (used + 1) h

theorem random_sample_point_fst_ok (geo_shape : GeoShape) (cands : ℕ → ℚ × ℚ)
    (useInt : Bool) (p : ℚ × ℚ)
    (h : (random_sample_point geo_shape cands useInt).1 = Except.ok p) :
    geo_shape.intersectsPt p = true ∧ ∃ i, p = samplePointCandidate cands useInt i := by
  obtain ⟨i, hi⟩ := attemptLoop_fst_ok _ _ _ _ _ h
  by_cases hc : geo_shape.intersectsPt (samplePointCandidate cands useInt i) = true
  · rw [if_pos hc] at hi
    have hp : samplePointCandidate cands useInt i = p := Except.ok.inj hi
    exact ⟨hp ▸ hc, i, hp.symm⟩
  · rw [if_neg hc] at hi
    exact absurd hi (fun hcon => Except.noConfusion hcon)

theorem random_sample_point_first_success (geo_shape : GeoShape)
    (cands : ℕ → ℚ × ℚ) (useInt : Bool) (j : ℕ) (hj : j < 10)
    (hok : geo_shape.intersectsPt (samplePointCandidate cands useInt j) = true)
    (hfail : ∀ i, i < j →
      geo_shape.intersectsPt (samplePointCandidate cands useInt i) = false) :
    random_sample_point geo_shape cands useInt =
      (Except.ok (samplePointCandidate cands useInt j), j + 1) := by
  have := attemptLoop_first_ok (samplingFailMsg useInt)
    (fun i => if geo_shape.intersectsPt (samplePointCandidate cands useInt i) then
      Except.ok (samplePointCandidate cands useInt i) else Except.error "point outside shape")
    (samplePointCandidate cands useInt j) j 10 0 (by omega)
    (by simp [hok]) (fun i hi b => by simp [hfail i (by omega)])
  simpa [random_sample_point] using this

theorem random_sample_point_exhausted (geo_shape : GeoShape)
    (cands : ℕ → ℚ × ℚ) (useInt : Bool)
    (hall : ∀ i, i < 10 →
      geo_shape.intersectsPt (samplePointCandidate cands useInt i) = false) :
    random_sample_point geo_shape cands useInt =
      (Except.error (samplingFailMsg useInt), 10) := by
  have := attemptLoop_all_fail (samplingFailMsg useInt)
    (fun i => if geo_shape.intersectsPt (samplePointCandidate cands useInt i) then
      Except.ok (samplePointCandidate cands useInt i) else Except.error "point outside shape")
    10 0 (fun i hi a => by simp [hall i (by omega)])
  simpa [random_sample_point] using this

/-- C6: `random_sample_point` re-checks containment of each candidate point in
the source shape; it makes at most 10 sampling attempts in total, returns the
first candidate contained in the shape (with the attempt count it took), and
if all 10 attempts fail it fails with the sampling-exhausted `ValueError`
after exactly 10 attempts. -/
theorem random_sample_point_retry_contract (geo_shape : GeoShape)
    (cands : ℕ → ℚ × ℚ) (useInt : Bool) :
    (random_sample_point geo_shape cands useInt).2 ≤ 10
    ∧ ((∀ i, i < 10 →
          geo_shape.intersectsPt (samplePointCandidate cands useInt i) = false) →
        random_sample_point geo_shape cands useInt =
          (Except.error (samplingFailMsg useInt), 10))
    ∧ (∀ j, j < 10 →
        geo_shape.intersectsPt (samplePointCandidate cands useInt j) = true →
        (∀ i, i < j →
          geo_shape.intersectsPt (samplePointCandidate cands useInt i) = false) →
        random_sample_point geo_shape cands useInt =
          (Except.ok (samplePointCandidate cands useInt j), j + 1)) := by
  refine ⟨?_, ?_, ?_⟩
  · simpa using attemptLoop_attempts_le (samplingFailMsg useInt) _ 10 0
  · exact random_sample_point_exhausted geo_shape cands useInt
  · exact random_sample_point_first_success geo_shape cands useInt

/-- Witness for C6: on the box `[0,4] × [0,4]` with the candidate stream
`i ↦ (i - 2, 2)` the first two candidates lie outside and the third is
returned after 3 attempts; with the constant candidate `(10, 10)` every
attempt fails and the error is raised after exactly 10 attempts. -/
theorem random_sample_point_retry_contract_witness :
    random_sample_point (GeoShape.box 0 0 4 4) (fun i => ((i : ℚ) - 2, 2)) false =
      (Except.ok (0, 2), 3)
    ∧ random_sample_point (GeoShape.box 0 0 4 4) (fun _ => (10, 10)) false =
      (Except.error (samplingFailMsg false), 10) := by
  constructor
  · have h := (random_sample_point_retry_contract (GeoShape.box 0 0 4 4)
      (fun i => ((i : ℚ) - 2, 2)) false).2.2 2 (by omega)
      (by norm_num [samplePointCandidate, GeoShape.intersectsPt])
      (fun i hi => by
        interval_cases i <;> norm_num [samplePointCandidate, GeoShape.intersectsPt])
    rw [h]
    norm_num [samplePointCandidate]
  · exact (random_sample_point_retry_contract (GeoShape.box 0 0 4 4)
      (fun _ => (10, 10)) false).2.1
      (fun i hi => by norm_num [samplePointCandidate, GeoShape.intersectsPt])

/-- C2: with an archive of a single tile whose coverage fraction is 0.05
(below the 0.1 acceptance threshold — in fact any fraction below 0.1),
every candidate is rejected by the double gate regardless of the Bernoulli
draws, and `__next__` makes exactly 16 attempts and then fails with the
sampling-failed `ValueError`. -/
theorem sh_index_low_coverage_rejected {α : Type} (coverArea : ℚ)
    (h : coverArea / 12055600804 < 1/10)
    (bern : ℕ → ℚ) (downstream : ℕ → ℚ → Except String α) :
    SentinelHubSampling_next
      (fun i => (get_random_tile coverArea (bern i)).bind (downstream i)) =
      (Except.error "Failed to sample a new task", 16) := by
  unfold SentinelHubSampling_next
  have := attemptLoop_all_fail "Failed to sample a new task"
    (fun i => (get_random_tile coverArea (bern i)).bind (downstream i))
    16 0 (fun i hi a => by
      simp only [get_random_tile]
      rw [if_neg (by rintro ⟨h1, -⟩; exact absurd h (not_lt.mpr h1))]
      exact fun hcon => Except.noConfusion hcon)
  simpa using this

/-- Witness for C2: coverage fraction exactly 0.05 (`coverArea`
602780040.2 of the reference area 12055600804). -/
theorem sh_index_low_coverage_rejected_witness :
    SentinelHubSampling_next
      (fun _ => (get_random_tile (6027800402/10) 0).bind
        (fun _ => (Except.error "no tile" : Except String Unit))) =
      (Except.error "Failed to sample a new task", 16) :=
  sh_index_low_coverage_rejected (6027800402/10) (by norm_num)
    (fun _ => 0) (fun _ _ => Except.error "no tile")

theorem convex_minkowski_difference_box (x0 y0 x1 y1 w1 w2 : ℚ)
    (hw1 : 0 ≤ w1) (hw2 : 0 ≤ w2) (hx : x0 < x1 - w1) (hy : y0 + w2 < y1) :
    convex_minkowski_difference (GeoShape.box x0 y0 x1 y1) (w1, w2) =
      GeoShape.box x0 (y0 + w2) (x1 - w1) y1 := by
  have step1 : GeoShape.inter (GeoShape.box x0 y0 x1 y1)
      ((GeoShape.box x0 y0 x1 y1).translate (-w1) 0) =
      GeoShape.box x0 y0 (x1 - w1) y1 := by
    simp only [GeoShape.translate, GeoShape.inter]
    rw [max_eq_left (by linarith), max_eq_left (by linarith),
        min_eq_right (by linarith), min_eq_right (by linarith)]
    rw [if_pos ⟨by linarith, by linarith⟩]
    ring_nf
  have step2 : GeoShape.inter (GeoShape.box x0 y0 (x1 - w1) y1)
      ((GeoShape.box x0 y0 x1 y1).translate 0 w2) =
      GeoShape.box x0 (y0 + w2) (x1 - w1) y1 := by
    simp only [GeoShape.translate, GeoShape.inter]
    rw [max_eq_left (by linarith), max_eq_right (by linarith),
        min_eq_left (by linarith), min_eq_left (by linarith)]
    rw [if_pos ⟨by linarith, by linarith⟩]
  have step3 : GeoShape.inter (GeoShape.box x0 (y0 + w2) (x1 - w1) y1)
      ((GeoShape.box x0 y0 x1 y1).translate (-w1) w2) =
      GeoShape.box x0 (y0 + w2) (x1 - w1) y1 := by
    simp only [GeoShape.translate, GeoShape.inter]
    rw [max_eq_left (by linarith), max_eq_left (by linarith),
        min_eq_left (by linarith), min_eq_left (by linarith)]
    rw [if_pos ⟨by linarith, by linarith⟩]
  unfold convex_minkowski_difference
  simp only [List.foldl]
  rw [step1, step2, step3]

theorem minkowski_difference_box (x0 y0 x1 y1 w1 w2 : ℚ)
    (hw1 : 0 ≤ w1) (hw2 : 0 ≤ w2) (hx : x0 < x1 - w1) (hy : y0 + w2 < y1) :
    minkowski_difference (GeoShape.box x0 y0 x1 y1) (w1, w2) =
      GeoShape.box x0 (y0 + w2) (x1 - w1) y1 := by
  unfold minkowski_difference
  rw [if_neg (by simp [GeoShape.isEmpty])]
  simp only [GeoShape.convex_hull]
  rw [show (GeoShape.box x0 y0 x1 y1).difference (GeoShape.box x0 y0 x1 y1) =
      GeoShape.empty by
    simp only [GeoShape.difference]
    rw [if_pos ⟨le_refl _, le_refl _, le_refl _, le_refl _⟩]]
  rw [show minkowski_sum GeoShape.empty (-(w1, w2).1, -(w1, w2).2) = GeoShape.empty
    from rfl]
  rw [convex_minkowski_difference_box x0 y0 x1 y1 w1 w2 hw1 hw2 hx hy]
  simp only [GeoShape.difference]

theorem minkowski_difference_square :
    minkowski_difference (GeoShape.box 0 0 100 100) (10, 10) =
      GeoShape.box 0 10 90 100 := by
  have h := minkowski_difference_box 0 0 100 100 10 10
    (by norm_num) (by norm_num) (by norm_num) (by norm_num)
  norm_num at h
  exact h

theorem random_sample_square_eval :
    random_sample (GeoShape.box 0 0 100 100) (10, 10) (fun _ => (5, 50)) =
      Except.ok [((5:ℚ), (50:ℚ)), (15, 50), (15, 40), (5, 40)] := by
  unfold random_sample
  rw [minkowski_difference_square]
  rw [if_neg (by simp [GeoShape.isEmpty])]
  have hcand : samplePointCandidate (fun _ => ((5:ℚ), (50:ℚ))) true 0 = (5, 50) := by
    simp only [samplePointCandidate, if_pos]
    rw [show ((5:ℚ)) = ((5:ℤ):ℚ) by norm_num, show ((50:ℚ)) = ((50:ℤ):ℚ) by norm_num]
    rw [pythonRound_intCast, pythonRound_intCast]
  have h := random_sample_point_first_success (GeoShape.box 0 10 90 100)
    (fun _ => ((5:ℚ), (50:ℚ))) true 0 (by omega)
    (by rw [hcand]; norm_num [GeoShape.intersectsPt]) (fun i hi => by omega)
  rw [hcand] at h
  rw [show (random_sample_point (GeoShape.box 0 10 90 100)
      (fun _ => ((5:ℚ), (50:ℚ))) true).1 = Except.ok ((5:ℚ), (50:ℚ)) by rw [h]]
  norm_num

/-- Counterexample for C1: on the square AOI (0,0)–(100,100) with window
(10,10), `minkowski_difference` yields the square (0,10)–(90,100) — the
locus of valid *upper-left* window corners, since `random_sample` anchors
the sampled point at the window's top-left — and not the square
(0,0)–(90,90) stated by the claim. -/
theorem minkowski_difference_square_counterexample :
    minkowski_difference (GeoShape.box 0 0 100 100) (10, 10) =
      GeoShape.box 0 10 90 100
    ∧ minkowski_difference (GeoShape.box 0 0 100 100) (10, 10) ≠
      GeoShape.box 0 0 90 90 := by
  refine ⟨minkowski_difference_square, ?_⟩
  rw [minkowski_difference_square]
  intro hc
  rw [GeoShape.box.injEq] at hc
  exact absurd hc.2.1 (by norm_num)

/-- C1 (amended): on the square AOI (0,0)–(100,100) with window (10,10),
`minkowski_difference` yields the square (0,10)–(90,100) (upper-left
anchor locus), and every rectangle returned by `random_sample` on that AOI
has lower-left corner `(x, y - 10)` with both coordinates in `[0, 90]`. -/
theorem random_sample_square_aoi :
    minkowski_difference (GeoShape.box 0 0 100 100) (10, 10) =
      GeoShape.box 0 10 90 100
    ∧ ∀ (cands : ℕ → ℚ × ℚ) (l : List (ℚ × ℚ)),
        random_sample (GeoShape.box 0 0 100 100) (10, 10) cands = Except.ok l →
        ∃ x y, l = [(x, y), (x + 10, y), (x + 10, y - 10), (x, y - 10)]
          ∧ 0 ≤ x ∧ x ≤ 90 ∧ 0 ≤ y - 10 ∧ y - 10 ≤ 90 := by
  refine ⟨minkowski_difference_square, ?_⟩
  intro cands l h
  unfold random_sample at h
  rw [minkowski_difference_square] at h
  rw [if_neg (by simp [GeoShape.isEmpty])] at h
  cases hrsp : (random_sample_point (GeoShape.box 0 10 90 100) cands true).1 with
  | error e =>
      rw [hrsp] at h
      exact absurd h (fun hc => Except.noConfusion hc)
  | ok p =>
      obtain ⟨px, py⟩ := p
      rw [hrsp] at h
      have hl : l = [(px, py), (px + 10, py), (px + 10, py - 10), (px, py - 10)] :=
        (Except.ok.inj h).symm
      have hin := (random_sample_point_fst_ok _ _ _ _ hrsp).1
      simp only [GeoShape.intersectsPt, decide_eq_true_eq] at hin
      exact ⟨px, py, hl, by linarith [hin.1], by linarith [hin.2.1],
        by linarith [hin.2.2.1], by linarith [hin.2.2.2]⟩

/-- Witness for C1: the constant candidate stream at (5, 50) produces the
rectangle with corners (5,50), (15,50), (15,40), (5,40), whose lower-left
corner (5, 40) satisfies the bounds. -/
theorem random_sample_square_aoi_witness :
    ∃ x y, ([((5:ℚ), (50:ℚ)), (15, 50), (15, 40), (5, 40)] : List (ℚ × ℚ)) =
        [(x, y), (x + 10, y), (x + 10, y - 10), (x, y - 10)]
      ∧ 0 ≤ x ∧ x ≤ 90 ∧ 0 ≤ y - 10 ∧ y - 10 ≤ 90 := by
  obtain ⟨x, y, hl, hb⟩ :=
    (random_sample_square_aoi).2 (fun _ => (5, 50)) _ random_sample_square_eval
  exact ⟨x, y, hl, hb⟩

/-- C9: a successful `random_sample` always returns a rectangle whose four
corners lie on the integer grid — the anchor is drawn with
`use_int_coords=True` unconditionally (the flag is hard-wired in the call,
cf. the `true` in the definition of `random_sample`) — and whose bounds
span exactly `window_shape.1` in x and `window_shape.2` in y, for any
integer window shape `(a, b)`. -/
theorem random_sample_integer_grid (shape : GeoShape) (a b : ℤ)
    (cands : ℕ → ℚ × ℚ) (l : List (ℚ × ℚ))
    (h : random_sample shape ((a : ℚ), (b : ℚ)) cands = Except.ok l) :
    ∃ x y : ℤ, l = [((x : ℚ), (y : ℚ)), (((x + a : ℤ) : ℚ), (y : ℚ)),
                    (((x + a : ℤ) : ℚ), ((y - b : ℤ) : ℚ)),
                    ((x : ℚ), ((y - b : ℤ) : ℚ))] := by
  unfold random_sample at h
  by_cases hse : (minkowski_difference shape ((a : ℚ), (b : ℚ))).isEmpty = true
  · rw [if_pos hse] at h
    exact absurd h (fun hc => Except.noConfusion hc)
  · rw [if_neg hse] at h
    cases hrsp : (random_sample_point (minkowski_difference shape ((a : ℚ), (b : ℚ)))
        cands true).1 with
    | error e =>
        rw [hrsp] at h
        exact absurd h (fun hc => Except.noConfusion hc)
    | ok p =>
        obtain ⟨px, py⟩ := p
        rw [hrsp] at h
        have hl : l = [(px, py), (px + (a:ℚ), py), (px + (a:ℚ), py - (b:ℚ)),
            (px, py - (b:ℚ))] := (Except.ok.inj h).symm
        obtain ⟨i, hi⟩ := (random_sample_point_fst_ok _ _ _ _ hrsp).2
        simp only [samplePointCandidate, if_pos] at hi
        obtain ⟨h1, h2⟩ := Prod.mk.injEq .. ▸ hi
        refine ⟨pythonRound (cands i).1, pythonRound (cands i).2, ?_⟩
        rw [hl, h1, h2]
        push_cast
        ring_nf

/-- Witness for C9: on the square AOI with window (10,10) and constant
candidate stream (5, 50), the returned corners are the integer points
(5,50), (15,50), (15,40), (5,40). -/
theorem random_sample_integer_grid_witness :
    ∃ x y : ℤ,
      ([((5:ℚ), (50:ℚ)), (15, 50), (15, 40), (5, 40)] : List (ℚ × ℚ)) =
        [((x : ℚ), (y : ℚ)), (((x + 10 : ℤ) : ℚ), (y : ℚ)),
         (((x + 10 : ℤ) : ℚ), ((y - 10 : ℤ) : ℚ)), ((x : ℚ), ((y - 10 : ℤ) : ℚ))] := by
  apply random_sample_integer_grid (GeoShape.box 0 0 100 100) 10 10 (fun _ => (5, 50))
  rw [show (((10:ℤ):ℚ), ((10:ℤ):ℚ)) = ((10:ℚ), (10:ℚ)) by norm_num]
  exact random_sample_square_eval

theorem GeopediaLayerSampling_index_after_mod (len : ℕ) (hl : 0 < len) :
    ∀ k, GeopediaLayerSampling_index_after len k = k % len := by
  intro k
  induction k with
  | zero => simp [GeopediaLayerSampling_index_after]
  | succ m ih =>
      have hm : m % len < len := Nat.mod_lt _ hl
      have hmod : (m % len + 1) % len = (m + 1) % len := Nat.mod_add_mod m len 1
      rw [GeopediaLayerSampling_index_after, ih, GeopediaLayerSampling_next_index]
      by_cases hc : len ≤ m % len + 1
      · have heq : m % len + 1 = len := by omega
        rw [if_pos hc, ← hmod, heq, Nat.mod_self]
      · rw [if_neg hc, ← hmod,
            Nat.mod_eq_of_lt (show m % len + 1 < len by omega)]

/-- C5: for a non-empty feature list, each `__next__` call advances the
cursor by 1 modulo the list length, and the feature consumed on call
`len(features) + 1` is the very list entry consumed on call 1. -/
theorem geopedia_layer_cycle {α : Type} (item_list : List α) (h : item_list ≠ []) :
    (∀ idx, idx < item_list.length →
      GeopediaLayerSampling_next_index item_list.length idx =
        (idx + 1) % item_list.length)
    ∧ GeopediaLayerSampling_index_after item_list.length (item_list.length + 1) =
        GeopediaLayerSampling_index_after item_list.length 1
    ∧ item_list.get?
        (GeopediaLayerSampling_index_after item_list.length (item_list.length + 1)) =
      item_list.get? (GeopediaLayerSampling_index_after item_list.length 1) := by
  have hl : 0 < item_list.length := List.length_pos.mpr h
  have hcursor : ∀ idx, idx < item_list.length →
      GeopediaLayerSampling_next_index item_list.length idx =
        (idx + 1) % item_list.length := by
    intro idx hidx
    rw [GeopediaLayerSampling_next_index]
    by_cases hc : item_list.length ≤ idx + 1
    · have heq : idx + 1 = item_list.length := by omega
      rw [if_pos hc, heq, Nat.mod_self]
    · rw [if_neg hc, Nat.mod_eq_of_lt (by omega)]
  have hidxeq : GeopediaLayerSampling_index_after item_list.length
      (item_list.length + 1) = GeopediaLayerSampling_index_after item_list.length 1 := by
    rw [GeopediaLayerSampling_index_after_mod _ hl, GeopediaLayerSampling_index_after_mod _ hl]
    rw [Nat.add_comm item_list.length 1, Nat.add_mod_right 1 item_list.length]
  exact ⟨hcursor, hidxeq, by rw [hidxeq]⟩

/-- Witness for C5: on a three-element list, call 4 consumes the same entry
(index 1) as call 1. -/
theorem geopedia_layer_cycle_witness :
    GeopediaLayerSampling_index_after 3 4 = GeopediaLayerSampling_index_after 3 1
    ∧ ([10, 20, 30] : List ℕ).get? (GeopediaLayerSampling_index_after 3 4) =
      ([10, 20, 30] : List ℕ).get? (GeopediaLayerSampling_index_after 3 1) := by
  have h := geopedia_layer_cycle ([10, 20, 30] : List ℕ) (by simp)
  exact ⟨h.2.1, h.2.2⟩

theorem CRS_value_eq_4326_iff (c : CRS) : c.value = 4326 ↔ c = CRS.wgs84 := by
  cases c with
  | wgs84 => simp [CRS.value]
  | pop_web => simp [CRS.value]
  | utm north zone =>
      simp only [CRS.value]
      constructor
      · intro hc
        cases north <;> simp at hc <;> omega
      · intro hc
        exact absurd hc (fun hcon => CRS.noConfusion hcon)

/-- C7: the serialized payload's bbox list swaps the axis order exactly when
the CRS is geographic (EPSG:4326): then the four coordinates are emitted as
(lat-min, lon-min, lat-max, lon-max) = (min-y, min-x, max-y, max-x);
otherwise they are emitted unchanged as (min-x, min-y, max-x, max-y). -/
theorem task_bbox_axis_order (t : Task) :
    (t.bbox.crs.value = 4326 →
      t.get_app_json.bbox = [t.bbox.min_y, t.bbox.min_x, t.bbox.max_y, t.bbox.max_x])
    ∧ (t.bbox.crs.value ≠ 4326 →
      t.get_app_json.bbox = [t.bbox.min_x, t.bbox.min_y, t.bbox.max_x, t.bbox.max_y]) := by
  constructor
  · intro hc
    have hw : t.bbox.crs = CRS.wgs84 := (CRS_value_eq_4326_iff _).mp hc
    simp [Task.get_app_json, BBox.coords, hw]
  · intro hc
    have hw : t.bbox.crs ≠ CRS.wgs84 := fun hcon =>
      hc ((CRS_value_eq_4326_iff _).mpr hcon)
    simp [Task.get_app_json, BBox.coords, hw]

/-- Witness for C7: a WGS84 task is emitted axis-swapped and a UTM task is
emitted unchanged. -/
theorem task_bbox_axis_order_witness :
    (Task.get_app_json ⟨"t1", ⟨1, 2, 3, 4, CRS.wgs84⟩, 0, 5, 6⟩).bbox = [2, 1, 4, 3]
    ∧ (Task.get_app_json ⟨"t2", ⟨1, 2, 3, 4, CRS.utm true 33⟩, 0, 5, 6⟩).bbox =
      [1, 2, 3, 4] := by
  constructor
  · exact (task_bbox_axis_order ⟨"t1", ⟨1, 2, 3, 4, CRS.wgs84⟩, 0, 5, 6⟩).1 (by decide)
  · exact (task_bbox_axis_order ⟨"t2", ⟨1, 2, 3, 4, CRS.utm true 33⟩, 0, 5, 6⟩).2 (by decide)

theorem _binary_search_loop_spec (c : List ℚ) (v : ℚ)
    (hmono : ∀ i j, i ≤ j → j < c.length → c.getD i 0 ≤ c.getD j 0) :
    ∀ (fuel left right : ℕ), right - left ≤ fuel → left ≤ right →
      right + 1 < c.length →
      v ≤ c.getD (right + 1) 0 →
      (∀ j, j < left → c.getD (j + 1) 0 < v) →
      left ≤ _binary_search_loop c v left right
      ∧ _binary_search_loop c v left right ≤ right
      ∧ v ≤ c.getD (_binary_search_loop c v left right + 1) 0
      ∧ (∀ j, j < _binary_search_loop c v left right → c.getD (j + 1) 0 < v) := by
  intro fuel
  induction fuel with
  | zero =>
      intro left right hfuel hlr hlen hR hL
      rw [_binary_search_loop, dif_neg (by omega)]
      refine ⟨le_refl _, hlr, ?_, hL⟩
      rw [(by omega : left = right)]
      exact hR
  | succ n ih =>
      intro left right hfuel hlr hlen hR hL
      by_cases hc : left < right
      · rw [_binary_search_loop, dif_pos hc]
        by_cases hcond : c.getD ((left + right) / 2 + 1) 0 ≥ v
        · rw [if_pos hcond]
          obtain ⟨g1, g2, g3, g4⟩ := ih left ((left + right) / 2)
            (by omega) (by omega) (by omega) hcond hL
          exact ⟨g1, by omega, g3, g4⟩
        · rw [if_neg hcond]
          have hvlt : c.getD ((left + right) / 2 + 1) 0 < v := lt_of_not_ge hcond
          obtain ⟨g1, g2, g3, g4⟩ := ih ((left + right) / 2 + 1) right
            (by omega) (by omega) hlen hR
            (fun j hj => by
              by_cases hjl : j < left
              · exact hL j hjl
              · exact lt_of_le_of_lt
                  (hmono (j + 1) ((left + right) / 2 + 1) (by omega) (by omega)) hvlt)
          exact ⟨by omega, g2, g3, g4⟩
      · rw [_binary_search_loop, dif_neg hc]
        refine ⟨le_refl _, hlr, ?_, hL⟩
        rw [(by omega : left = right)]
        exact hR

/-- C3: for every strictly increasing array `C` of length `n + 1` with
`C[0] = 0` (`n ≥ 1`) and every target in `[0, C[n])`, `_binary_search`
returns the smallest index `i` in `[0, n-1]` with `C[i+1] ≥ target`. -/
theorem _binary_search_correct (c : List ℚ) (v : ℚ) (n : ℕ)
    (hlen : c.length = n + 1) (hn : 1 ≤ n) (_hzero : c.getD 0 0 = 0)
    (hmono : ∀ i j, i < j → j < c.length → c.getD i 0 < c.getD j 0)
    (_hv0 : 0 ≤ v) (hvn : v < c.getD n 0) :
    _binary_search c v ≤ n - 1
    ∧ v ≤ c.getD (_binary_search c v + 1) 0
    ∧ (∀ j, v ≤ c.getD (j + 1) 0 → _binary_search c v ≤ j) := by
  have hmono' : ∀ i j, i ≤ j → j < c.length → c.getD i 0 ≤ c.getD j 0 := by
    intro i j hij hj
    rcases eq_or_lt_of_le hij with heq | hlt
    · rw [heq]
    · exact le_of_lt (hmono i j hlt hj)
  have hlen2 : c.length - 2 = n - 1 := by omega
  have hspec := _binary_search_loop_spec c v hmono' (n - 1) 0 (n - 1)
    (by omega) (by omega) (by omega)
    (by rw [(by omega : n - 1 + 1 = n)]; exact le_of_lt hvn)
    (fun j hj => absurd hj (Nat.not_lt_zero j))
  unfold _binary_search
  rw [hlen2]
  refine ⟨hspec.2.1, hspec.2.2.1, ?_⟩
  intro j hj
  by_contra hcon
  exact absurd hj (not_le.mpr (hspec.2.2.2 j (by omega)))

/-- Witness for C3: for `C = [0, 1, 3, 6]` (n = 3) and target 2, the
smallest index `i` with `C[i+1] ≥ 2` is 1. -/
theorem _binary_search_correct_witness :
    _binary_search [0, 1, 3, 6] 2 ≤ 2
    ∧ (2:ℚ) ≤ ([0, 1, 3, 6] : List ℚ).getD (_binary_search [0, 1, 3, 6] 2 + 1) 0
    ∧ (∀ j, (2:ℚ) ≤ ([0, 1, 3, 6] : List ℚ).getD (j + 1) 0 →
        _binary_search [0, 1, 3, 6] 2 ≤ j) := by
  have h := _binary_search_correct [0, 1, 3, 6] 2 3 (by simp) (by omega)
    (by norm_num [List.getD])
    (fun i j hij hj => by
      simp only [List.length_cons, List.length_nil] at hj
      interval_cases j <;> interval_cases i <;> norm_num [List.getD])
    (by norm_num) (by norm_num [List.getD])
  exact h

/-- C4: cropping a raster with `sample_image_with_window` and then
re-cropping the original raster via `sample_image_with_bbox` with the geo
bbox recomputed by the first crop yields the identical sub-array and the
same bbox, for every raster, geo bbox of positive extent, and in-bounds
pixel window. -/
theorem sample_image_roundtrip (image : PyImage) (bbox : BBox) (w : Window)
    (hW : 0 < image.width) (hH : 0 < image.height)
    (hx : bbox.min_x < bbox.max_x) (hy : bbox.min_y < bbox.max_y)
    (h0 : 0 ≤ w.x0) (h1 : 0 ≤ w.y0)
    (h2 : w.x1 ≤ image.width) (h3 : w.y1 ≤ image.height) :
    sample_image_with_bbox image bbox
      (sample_image_with_window image bbox w).2.min_x
      (sample_image_with_window image bbox w).2.min_y
      (sample_image_with_window image bbox w).2.max_x
      (sample_image_with_window image bbox w).2.max_y 0
    = sample_image_with_window image bbox w := by
  obtain ⟨wx0, wy0, wx1, wy1⟩ := w
  have hrx0 : (get_resolution image bbox).1 ≠ 0 :=
    div_ne_zero (sub_ne_zero.mpr (ne_of_gt hx))
      (Int.cast_ne_zero.mpr (by omega))
  have hry0 : (get_resolution image bbox).2 ≠ 0 :=
    div_ne_zero (sub_ne_zero.mpr (ne_of_gt hy))
      (Int.cast_ne_zero.mpr (by omega))
  have esub : ∀ (m r : ℚ) (z : ℤ), r ≠ 0 →
      (m + r * (z : ℚ) - m) / r - ((0 : ℤ) : ℚ) = (z : ℚ) := by
    intro m r z hr
    rw [Int.cast_zero, sub_zero, add_sub_cancel_left, mul_div_cancel_left₀ _ hr]
  have eadd : ∀ (m : ℚ) (r : ℚ) (z : ℤ), r ≠ 0 →
      (m + r * (z : ℚ) - m) / r + ((0 : ℤ) : ℚ) = (z : ℚ) := by
    intro m r z hr
    rw [Int.cast_zero, add_zero, add_sub_cancel_left, mul_div_cancel_left₀ _ hr]
  have hwin :
      (⟨max (pythonRound ((bbox.min_x + (get_resolution image bbox).1 * (wx0 : ℚ)
            - bbox.min_x) / (get_resolution image bbox).1 - ((0 : ℤ) : ℚ))) 0,
        max (pythonRound ((bbox.min_y + (get_resolution image bbox).2 * (wy0 : ℚ)
            - bbox.min_y) / (get_resolution image bbox).2 - ((0 : ℤ) : ℚ))) 0,
        min (pythonRound ((bbox.min_x + (get_resolution image bbox).1 * (wx1 : ℚ)
            - bbox.min_x) / (get_resolution image bbox).1 + ((0 : ℤ) : ℚ))) image.width,
        min (pythonRound ((bbox.min_y + (get_resolution image bbox).2 * (wy1 : ℚ)
            - bbox.min_y) / (get_resolution image bbox).2 + ((0 : ℤ) : ℚ))) image.height⟩
        : Window)
      = (⟨wx0, wy0, wx1, wy1⟩ : Window) := by
    rw [Window.mk.injEq]
    refine ⟨?_, ?_, ?_, ?_⟩
    · rw [esub bbox.min_x (get_resolution image bbox).1 wx0 hrx0, pythonRound_intCast]
      exact max_eq_left h0
    · rw [esub bbox.min_y (get_resolution image bbox).2 wy0 hry0, pythonRound_intCast]
      exact max_eq_left h1
    · rw [eadd bbox.min_x (get_resolution image bbox).1 wx1 hrx0, pythonRound_intCast]
      exact min_eq_left h2
    · rw [eadd bbox.min_y (get_resolution image bbox).2 wy1 hry0, pythonRound_intCast]
      exact min_eq_left h3
  exact congrArg (sample_image_with_window image bbox) hwin

/-- Witness for C4: a 2×3 raster over the bbox (0,0)–(6,4) (resolution 2
units per pixel on both axes) and the window [1,0,3,1]. -/
theorem sample_image_roundtrip_witness :
    sample_image_with_bbox (PyImage.mk 2 3 (fun i j => 10 * i + j))
      (BBox.mk 0 0 6 4 CRS.wgs84)
      (sample_image_with_window (PyImage.mk 2 3 (fun i j => 10 * i + j))
        (BBox.mk 0 0 6 4 CRS.wgs84) (Window.mk 1 0 3 1)).2.min_x
      (sample_image_with_window (PyImage.mk 2 3 (fun i j => 10 * i + j))
        (BBox.mk 0 0 6 4 CRS.wgs84) (Window.mk 1 0 3 1)).2.min_y
      (sample_image_with_window (PyImage.mk 2 3 (fun i j => 10 * i + j))
        (BBox.mk 0 0 6 4 CRS.wgs84) (Window.mk 1 0 3 1)).2.max_x
      (sample_image_with_window (PyImage.mk 2 3 (fun i j => 10 * i + j))
        (BBox.mk 0 0 6 4 CRS.wgs84) (Window.mk 1 0 3 1)).2.max_y 0
    = sample_image_with_window (PyImage.mk 2 3 (fun i j => 10 * i + j))
        (BBox.mk 0 0 6 4 CRS.wgs84) (Window.mk 1 0 3 1) :=
  sample_image_roundtrip (PyImage.mk 2 3 (fun i j => 10 * i + j))
    (BBox.mk 0 0 6 4 CRS.wgs84) (Window.mk 1 0 3 1)
    (by decide) (by decide) (by norm_num) (by norm_num)
    (by decide) (by decide) (by decide) (by decide)

theorem _divide_and_round_bounds (a b : ℤ) (hb : 0 < b) :
    -b ≤ 2 * (a - b * _divide_and_round a b)
    ∧ 2 * (a - b * _divide_and_round a b) ≤ b := by
  have hfd : Int.fdiv a b = a / b := Int.fdiv_eq_ediv a (le_of_lt hb)
  have hfm : Int.fmod a b = a % b := Int.fmod_eq_emod a (le_of_lt hb)
  have hdm : b * (a / b) + a % b = a := Int.ediv_add_emod a b
  have hnn : 0 ≤ a % b := Int.emod_nonneg a (ne_of_gt hb)
  have hlt : a % b < b := Int.emod_lt_of_pos a hb
  simp only [_divide_and_round, hfd, hfm, if_pos hb]
  by_cases hcase : b < 2 * (a % b) ∨ 2 * (a % b) = b ∧ a / b % 2 = 1
  · rw [if_pos hcase]
    have hge : b ≤ 2 * (a % b) := by
      rcases hcase with hgt | ⟨heq, -⟩
      · omega
      · omega
    constructor <;> nlinarith [hdm, hge, hlt]
  · rw [if_neg hcase]
    have hle : 2 * (a % b) ≤ b := by
      obtain ⟨hngt, -⟩ := not_or.mp hcase
      omega
    constructor <;> nlinarith [hdm, hnn, hle]

theorem n_chunks_pos (t0 t1 : ℤ) (h : t0 < t1) : 1 ≤ n_chunks t0 t1 FOUR_WEEKS := by
  unfold n_chunks
  have hpos : (0 : ℚ) < ((t1 - t0 : ℤ) : ℚ) / ((FOUR_WEEKS : ℤ) : ℚ) := by
    apply div_pos
    · exact_mod_cast (by omega : (0:ℤ) < t1 - t0)
    · exact_mod_cast (by norm_num [FOUR_WEEKS] : (0:ℤ) < FOUR_WEEKS)
  exact Int.ceil_pos.mpr hpos

theorem delta_le_n_chunks_mul (t0 t1 : ℤ) :
    t1 - t0 ≤ n_chunks t0 t1 FOUR_WEEKS * FOUR_WEEKS := by
  have hRpos : (0 : ℚ) < ((FOUR_WEEKS : ℤ) : ℚ) := by
    exact_mod_cast (by norm_num [FOUR_WEEKS] : (0:ℤ) < FOUR_WEEKS)
  have hceil : ((t1 - t0 : ℤ) : ℚ) / ((FOUR_WEEKS : ℤ) : ℚ) ≤
      ((n_chunks t0 t1 FOUR_WEEKS : ℤ) : ℚ) := Int.le_ceil _
  have := (div_le_iff₀ hRpos).mp hceil
  exact_mod_cast this

/-- C8 (amended): for `t1 > t0`, `_time_split` returns exactly
`n = ⌈(t1 - t0) / 4 weeks⌉` consecutive chunks of equal length
`c = round_half_even((t1 - t0) / n)` — the exact quotient rounded to whole
microseconds by `timedelta` division, not the exact quotient itself — with
`c` at most 4 weeks; the first chunk starts at `t0`, each chunk starts
where the previous one ends, and the last chunk ends at `t0 + n·c`, which
differs from `t1` by at most `n/2` microseconds (and equals `t1` exactly
when `n` divides `t1 - t0`). -/
theorem _time_split_amended (t0 t1 : ℤ) (h : t0 < t1) :
    ∃ l : List (ℤ × ℤ),
      _time_split t0 t1 FOUR_WEEKS = Except.ok l
      ∧ l.length = (n_chunks t0 t1 FOUR_WEEKS).toNat
      ∧ 1 ≤ n_chunks t0 t1 FOUR_WEEKS
      ∧ (∀ p ∈ l, p.2 - p.1 = chunk_length t0 t1 FOUR_WEEKS)
      ∧ chunk_length t0 t1 FOUR_WEEKS ≤ FOUR_WEEKS
      ∧ (l.getD 0 (0, 0)).1 = t0
      ∧ (∀ i, i + 1 < l.length →
          (l.getD i (0, 0)).2 = (l.getD (i + 1) (0, 0)).1)
      ∧ (l.getD (l.length - 1) (0, 0)).2 =
          t0 + n_chunks t0 t1 FOUR_WEEKS * chunk_length t0 t1 FOUR_WEEKS
      ∧ -(n_chunks t0 t1 FOUR_WEEKS) ≤
          2 * ((t1 - t0) - n_chunks t0 t1 FOUR_WEEKS * chunk_length t0 t1 FOUR_WEEKS)
      ∧ 2 * ((t1 - t0) - n_chunks t0 t1 FOUR_WEEKS * chunk_length t0 t1 FOUR_WEEKS) ≤
          n_chunks t0 t1 FOUR_WEEKS := by
  have hn1 : 1 ≤ n_chunks t0 t1 FOUR_WEEKS := n_chunks_pos t0 t1 h
  have hdn : t1 - t0 ≤ n_chunks t0 t1 FOUR_WEEKS * FOUR_WEEKS :=
    delta_le_n_chunks_mul t0 t1
  have hbounds := _divide_and_round_bounds (t1 - t0) (n_chunks t0 t1 FOUR_WEEKS)
    (by omega)
  have hchunk : chunk_length t0 t1 FOUR_WEEKS =
      _divide_and_round (t1 - t0) (n_chunks t0 t1 FOUR_WEEKS) := rfl
  have hcle : chunk_length t0 t1 FOUR_WEEKS ≤ FOUR_WEEKS := by
    rw [hchunk]
    have k1 : n_chunks t0 t1 FOUR_WEEKS *
        (2 * _divide_and_round (t1 - t0) (n_chunks t0 t1 FOUR_WEEKS)) ≤
        n_chunks t0 t1 FOUR_WEEKS * (2 * FOUR_WEEKS + 1) := by
      nlinarith [hbounds.1, hdn]
    have k2 : 2 * _divide_and_round (t1 - t0) (n_chunks t0 t1 FOUR_WEEKS) ≤
        2 * FOUR_WEEKS + 1 := le_of_mul_le_mul_left k1 (by omega)
    omega
  have hntn : ((n_chunks t0 t1 FOUR_WEEKS).toNat : ℤ) = n_chunks t0 t1 FOUR_WEEKS :=
    Int.toNat_of_nonneg (by omega)
  have hgetD : ∀ i : ℕ, i < (n_chunks t0 t1 FOUR_WEEKS).toNat →
      (((List.range (n_chunks t0 t1 FOUR_WEEKS).toNat).map
        (fun i : ℕ => (t0 + (i : ℤ) * chunk_length t0 t1 FOUR_WEEKS,
                       t0 + ((i : ℤ) + 1) * chunk_length t0 t1 FOUR_WEEKS))).getD i (0, 0))
      = (t0 + (i : ℤ) * chunk_length t0 t1 FOUR_WEEKS,
         t0 + ((i : ℤ) + 1) * chunk_length t0 t1 FOUR_WEEKS) := by
    intro i hi
    rw [List.getD_eq_getElem?_getD, List.getElem?_map, List.getElem?_range hi]
    rfl
  refine ⟨(List.range (n_chunks t0 t1 FOUR_WEEKS).toNat).map
    (fun i : ℕ => (t0 + (i : ℤ) * chunk_length t0 t1 FOUR_WEEKS,
                   t0 + ((i : ℤ) + 1) * chunk_length t0 t1 FOUR_WEEKS)),
    ?_, ?_, hn1, ?_, hcle, ?_, ?_, ?_, ?_, ?_⟩
  · unfold _time_split
    rw [if_neg (by omega)]
  · rw [List.length_map, List.length_range]
  · intro p hp
    obtain ⟨i, hmem, hpi⟩ := List.mem_map.mp hp
    rw [← hpi]
    ring
  · rw [hgetD 0 (by omega)]
    norm_num
  · intro i hip
    rw [List.length_map, List.length_range] at hip
    rw [hgetD i (by omega), hgetD (i + 1) (by omega)]
    push_cast
    ring
  · rw [List.length_map, List.length_range]
    rw [hgetD ((n_chunks t0 t1 FOUR_WEEKS).toNat - 1) (by omega)]
    have hcast : (((n_chunks t0 t1 FOUR_WEEKS).toNat - 1 : ℕ) : ℤ) + 1 =
        n_chunks t0 t1 FOUR_WEEKS := by
      omega
    rw [hcast]
  · exact hbounds.1
  · exact hbounds.2

/-- Witness for C8 (amended) at the one-microsecond interval [0, 1]:
a single chunk [0, 1]. -/
theorem _time_split_amended_witness :
    ∃ l : List (ℤ × ℤ),
      _time_split 0 1 FOUR_WEEKS = Except.ok l
      ∧ l.length = (n_chunks 0 1 FOUR_WEEKS).toNat
      ∧ 1 ≤ n_chunks 0 1 FOUR_WEEKS
      ∧ (∀ p ∈ l, p.2 - p.1 = chunk_length 0 1 FOUR_WEEKS)
      ∧ chunk_length 0 1 FOUR_WEEKS ≤ FOUR_WEEKS
      ∧ (l.getD 0 (0, 0)).1 = 0
      ∧ (∀ i, i + 1 < l.length →
          (l.getD i (0, 0)).2 = (l.getD (i + 1) (0, 0)).1)
      ∧ (l.getD (l.length - 1) (0, 0)).2 =
          0 + n_chunks 0 1 FOUR_WEEKS * chunk_length 0 1 FOUR_WEEKS
      ∧ -(n_chunks 0 1 FOUR_WEEKS) ≤
          2 * ((1 - 0) - n_chunks 0 1 FOUR_WEEKS * chunk_length 0 1 FOUR_WEEKS)
      ∧ 2 * ((1 - 0) - n_chunks 0 1 FOUR_WEEKS * chunk_length 0 1 FOUR_WEEKS) ≤
          n_chunks 0 1 FOUR_WEEKS :=
  _time_split_amended 0 1 (by norm_num)

/-- Counterexample for C8: for the interval of length 4 weeks + 1
microsecond, `_time_split` returns two chunks of 1209600000000 µs each
(the rounded half-quotient), and the last chunk ends at
`t0 + 2419200000000`, one microsecond short of `t1 = t0 + 2419200000001` —
the chunks do not cover `[t0, t1]` exactly and their common length is the
rounded, not the exact, quotient. -/
theorem _time_split_counterexample :
    _time_split 0 2419200000001 FOUR_WEEKS =
      Except.ok [((0:ℤ), (1209600000000:ℤ)), (1209600000000, 2419200000000)]
    ∧ ((2419200000000:ℤ) ≠ 2419200000001) := by
  have hn : n_chunks 0 2419200000001 FOUR_WEEKS = 2 := by
    unfold n_chunks FOUR_WEEKS
    rw [Int.ceil_eq_iff]
    constructor
    · push_cast
      norm_num
    · push_cast
      norm_num
  have hc : chunk_length 0 2419200000001 FOUR_WEEKS = 1209600000000 := by
    unfold chunk_length
    rw [hn]
    decide
  constructor
  · unfold _time_split
    rw [hn, hc]
    decide
  · decide

/-- C10: a time interval whose start equals its end gives `delta_t = 0`,
hence `n_t = ceil(0 / 4 weeks) = 0`, and the unguarded `delta_t / n_t`
division raises `ZeroDivisionError` out of the `ShOgcSampling` constructor
— an untyped arithmetic error, not one of the typed sampling
`ValueError`s. -/
theorem sh_ogc_init_zero_duration (t0 : ℤ) :
    ShOgcSampling_init t0 t0 = Except.error PyErr.zeroDivisionError
    ∧ (∀ msg, PyErr.zeroDivisionError ≠ PyErr.valueError msg) := by
  constructor
  · unfold ShOgcSampling_init _time_split
    rw [if_pos]
    unfold n_chunks
    rw [sub_self]
    norm_num
  · intro msg hc
    exact PyErr.noConfusion hc

/-- Witness for C10 at the concrete epoch instant 0. -/
theorem sh_ogc_init_zero_duration_witness :
    ShOgcSampling_init 0 0 = Except.error PyErr.zeroDivisionError :=
  (sh_ogc_init_zero_duration 0).1

end ClassificationService
